import Mathlib

/-
Shallow embedding of the AutoModeService feature-orchestration engine
(automaker).  The JavaScript service drives an autonomous feature loop:
a persisted feature list (`.automaker/feature_list.json`), a registry of
running executions (`runningFeatures`), per-feature append-only context
logs (`.automaker/agents-context/<id>.md`), and delegate-agent calls.

The delegate agent is modelled as an oracle: a list of `DelegateStep`s,
one per streaming query; each step carries the stream events the engine
observes (text fragments and UpdateFeatureStatus tool invocations) and
how the stream ends (normal end, abort signal, or another error).
File I/O is modelled by an explicit `Disk`; `Date.now()` by a logical
clock bumped at each read.
-/

namespace AutoMode

/-- A feature record as persisted on disk; `id` is optional in the file. -/
structure RawFeature where
  id : Option String
  category : String
  description : String
  steps : List String
  status : String
deriving DecidableEq

/-- A feature as returned by `loadFeatures` (id always assigned). -/
structure Feature where
  id : String
  category : String
  description : String
  steps : List String
  status : String
deriving DecidableEq

/-- Generated id used by `loadFeatures`: `feature-<index>-<timestamp>`. -/
def genId (i now : Nat) : String :=
  "feature-" ++ toString i ++ "-" ++ toString now

/-- JS `f.id || generated`: a missing or empty id (falsy) is replaced. -/
def assignId (now i : Nat) (r : RawFeature) : Feature :=
  { id :=
      match r.id with
      | some s => if s.isEmpty then genId i now else s
      | none => genId i now
    category := r.category
    description := r.description
    steps := r.steps
    status := r.status }

/-- `features.map((f, index) => ...)` with the running index. -/
def assignIds (now : Nat) : Nat → List RawFeature → List Feature
  | _, [] => []
  | i, r :: rs => assignId now i r :: assignIds now (i + 1) rs

/-- The on-disk state: the feature list file (`none` = missing or
unparsable) and the per-feature context log files (featureId, content). -/
structure Disk where
  featureFile : Option (List RawFeature)
  logs : List (String × String)
deriving DecidableEq

/-- `loadFeatures`: read + parse the feature list; `[]` on any failure;
assign generated ids to records lacking one. -/
def loadFeatures (d : Disk) (now : Nat) : List Feature :=
  match d.featureFile with
  | none => []
  | some rs => assignIds now 0 rs

/-- The stable fields written back by `updateFeatureStatus` (`toSave`). -/
def featureToRaw (f : Feature) : RawFeature :=
  { id := some f.id
    category := f.category
    description := f.description
    steps := f.steps
    status := f.status }

/-- JS mutates the first feature found by `find`, then saves the list. -/
def setStatusFirst : List Feature → String → String → List Feature
  | [], _, _ => []
  | f :: rest, fid, st =>
    if f.id == fid then { f with status := st } :: rest
    else f :: setStatusFirst rest fid st

/-- `deleteContextFile`: best-effort unlink wrapped in try/catch.
`fault = none` models a normal unlink (removes the file; an ENOENT when
the file is absent is swallowed); `fault = some msg` models any other
I/O error, which is logged only — the log file stays.  The function
never raises, mirroring the catch-all in the source. -/
def deleteContextFile (logs : List (String × String)) (fid : String)
    (fault : Option String) : List (String × String) :=
  match fault with
  | none => logs.filter (fun p => !(p.1 == fid))
  | some _ => logs

/-- `updateFeatureStatus` body: load → find-by-id → mutate first match →
full rewrite with stable fields; when the feature is not found it logs
and returns leaving the disk untouched; when the new status is
"verified" the context log is deleted (best effort). -/
def updateFeatureStatusImpl (d : Disk) (fid status : String) (now : Nat)
    (fault : Option String) : Disk :=
  let features := loadFeatures d now
  match features.find? (fun f => f.id == fid) with
  | none => d
  | some _ =>
    let updated := setStatusFirst features fid status
    let d1 : Disk := { featureFile := some (updated.map featureToRaw), logs := d.logs }
    if status == "verified" then
      { d1 with logs := deleteContextFile d1.logs fid fault }
    else d1

/-- `updateFeatureStatus` as seen by a caller: it never throws — an
unknown id is logged and swallowed, and a context-file unlink failure is
caught inside `deleteContextFile`. -/
def updateFeatureStatus (d : Disk) (fid status : String) (now : Nat)
    (fault : Option String) : Except String Disk :=
  Except.ok (updateFeatureStatusImpl d fid status now fault)

/-- `writeToContextFile` semantics: read existing content if present,
concatenate, rewrite (create when missing). -/
def appendLog : List (String × String) → String → String → List (String × String)
  | [], fid, c => [(fid, c)]
  | (k, v) :: rest, fid, c =>
    if k == fid then (k, v ++ c) :: rest
    else (k, v) :: appendLog rest fid c

/-- The world outside the service object: the disk, a logical clock for
`Date.now()`, and the allocated abort tokens (token id, triggered?). -/
structure World where
  disk : Disk
  time : Nat
  tokens : List (Nat × Bool)
  nextToken : Nat
deriving DecidableEq

/-- One `loadFeatures` call made by the service (fresh timestamp). -/
def loadFeaturesW (w : World) : List Feature × World :=
  (loadFeatures w.disk w.time, { w with time := w.time + 1 })

/-- One `updateFeatureStatus` call made with a healthy filesystem. -/
def applyUpdateW (w : World) (fid status : String) : World :=
  { w with
    disk := updateFeatureStatusImpl w.disk fid status w.time none
    time := w.time + 1 }

/-- `writeToContextFile` lifted to the world. -/
def writeToContextFile (w : World) (fid content : String) : World :=
  { w with disk := { w.disk with logs := appendLog w.disk.logs fid content } }

/-- `readContextFile`: missing file yields `none` ("fresh start"). -/
def readContextFile (w : World) (fid : String) : Option String :=
  (w.disk.logs.find? (fun p => p.1 == fid)).map (fun p => p.2)

/-- `new AbortController()`: allocate a fresh, untriggered token. -/
def newToken (w : World) : Nat × World :=
  (w.nextToken,
    { w with
      tokens := w.tokens ++ [(w.nextToken, false)]
      nextToken := w.nextToken + 1 })

/-- A registry entry: the execution bookkeeping for one feature id. -/
structure Execution where
  abortController : Option Nat
  hasQuery : Bool
deriving DecidableEq

/-- The entry stored by `runningFeatures.set(featureId, {...null...})`. -/
def freshExecution : Execution :=
  { abortController := none, hasQuery := false }

/-- The service object's mutable fields. -/
structure SvcState where
  runningFeatures : List (String × Execution)
  autoLoopRunning : Bool
  autoLoopAbortController : Option Nat
deriving DecidableEq

/-- JS `Map.set`: replace in place or append. -/
def setAssoc : List (String × Execution) → String → Execution → List (String × Execution)
  | [], fid, e => [(fid, e)]
  | (k, v) :: rest, fid, e =>
    if k == fid then (fid, e) :: rest
    else (k, v) :: setAssoc rest fid e

/-- JS `Map.has`. -/
def regHas (st : SvcState) (fid : String) : Bool :=
  st.runningFeatures.any (fun p => p.1 == fid)

/-- JS `Map.get`. -/
def regGet (st : SvcState) (fid : String) : Option Execution :=
  (st.runningFeatures.find? (fun p => p.1 == fid)).map (fun p => p.2)

/-- JS `Map.set` on the service state. -/
def regSet (st : SvcState) (fid : String) (e : Execution) : SvcState :=
  { st with runningFeatures := setAssoc st.runningFeatures fid e }

/-- JS `Map.delete`. -/
def regDelete (st : SvcState) (fid : String) : SvcState :=
  { st with runningFeatures := st.runningFeatures.filter (fun p => !(p.1 == fid)) }

/-- One observable event on the delegate stream: an assistant text block
or an UpdateFeatureStatus tool invocation (with its server-side effect). -/
inductive DelegateEvent where
  | text (s : String)
  | statusUpdate (fid status : String)
deriving DecidableEq

/-- How a delegate stream ends: drained normally, an abort signal, or
any other raised error. -/
inductive DelegateEnd where
  | normal
  | aborted
  | errored (msg : String)
deriving DecidableEq

/-- One full delegate query as the engine observes it. -/
structure DelegateStep where
  events : List DelegateEvent
  outcome : DelegateEnd
deriving DecidableEq

/-- Consume the next step of the delegate oracle. -/
def takeStep : List DelegateStep → DelegateStep × List DelegateStep
  | [] => ({ events := [], outcome := DelegateEnd.normal }, [])
  | s :: rest => (s, rest)

/-- The context-log line written for a tool_use block. -/
def toolUseMsg : String :=
  "\n🔧 Tool: mcp__automaker-tools__UpdateFeatureStatus\n"

/-- Accumulator for the streaming for-await loop. -/
structure StreamAcc where
  text : String
  started : Bool
  world : World

/-- Process one streamed message block: text blocks are accumulated and
appended to the context log; tool_use blocks log a tool line and apply
the UpdateFeatureStatus side effect.  `trackStart` mirrors the
`hasStartedToolUse` flag that only `implementFeature` keeps. -/
def streamEvent (fid : String) (trackStart : Bool) (acc : StreamAcc) :
    DelegateEvent → StreamAcc
  | DelegateEvent.text s =>
    { acc with text := acc.text ++ s, world := writeToContextFile acc.world fid s }
  | DelegateEvent.statusUpdate tfid tstatus =>
    let w1 :=
      if trackStart && !acc.started then
        writeToContextFile acc.world fid "Starting code implementation...\n"
      else acc.world
    let w2 := writeToContextFile w1 fid toolUseMsg
    { text := acc.text, started := true, world := applyUpdateW w2 tfid tstatus }

/-- Drain the delegate stream, returning the accumulated response text
and the resulting world. -/
def runStream (fid : String) (trackStart : Bool) (w : World)
    (events : List DelegateEvent) : String × World :=
  let acc := events.foldl (streamEvent fid trackStart)
    { text := "", started := false, world := w }
  (acc.text, acc.world)

/-- Result of one state-machine phase: `{passes, message}`. -/
structure PhaseResult where
  passes : Bool
  message : String
deriving DecidableEq

/-- `execution.query = null; execution.abortController = null`. -/
def clearExec (st : SvcState) (fid : String) : SvcState :=
  match regGet st fid with
  | some _ => regSet st fid freshExecution
  | none => st

/-- `updatedFeature?.status === "verified"`. -/
def statusIsVerified (fs : List Feature) (fid : String) : Bool :=
  match fs.find? (fun g => g.id == fid) with
  | some g => g.status == "verified"
  | none => false

/-- The persisted status of a feature as a fresh load would see it. -/
def storedStatus (d : Disk) (now : Nat) (fid : String) : Option String :=
  ((loadFeatures d now).find? (fun f => f.id == fid)).map (fun f => f.status)

/-- Whether a context log file exists for a feature id. -/
def logExistsB (d : Disk) (fid : String) : Bool :=
  d.logs.any (fun p => p.1 == fid)

/-- `implementFeature`: planning phase message, open an abort token,
stream the delegate (action phase), then verification: reload the store
and pass exactly when the status reads "verified".  An abort signal is
returned as a non-passing result; any other stream error is re-raised
after the execution bookkeeping is cleared.  The last component counts
delegate queries started. -/
def implementFeature (st : SvcState) (w : World) (f : Feature) (step : DelegateStep) :
    Except String PhaseResult × SvcState × World × Nat :=
  match regGet st f.id with
  | none =>
    (Except.error ("Feature " ++ f.id ++ " not registered in runningFeatures"), st, w, 0)
  | some ex =>
    let w1 := writeToContextFile w f.id
      ("📋 Planning implementation for: " ++ f.description ++ "\n")
    let tw := newToken w1
    let st1 := regSet st f.id { ex with abortController := some tw.1 }
    let w2 := writeToContextFile tw.2 f.id
      ("⚡ Executing implementation for: " ++ f.description ++ "\n")
    let st2 := regSet st1 f.id { abortController := some tw.1, hasQuery := true }
    let sr := runStream f.id true w2 step.events
    match step.outcome with
    | DelegateEnd.normal =>
      let st3 := clearExec st2 f.id
      let w3 := writeToContextFile sr.2 f.id
        ("✅ Verifying implementation for: " ++ f.description ++ "\n")
      let w4 := writeToContextFile w3 f.id
        "Verifying implementation and checking test results...\n"
      let lw := loadFeaturesW w4
      let passes := statusIsVerified lw.1 f.id
      let w5 := writeToContextFile lw.2 f.id
        (if passes then "✓ Verification successful: All tests passed\n"
         else "✗ Verification: Tests need attention\n")
      (Except.ok { passes := passes, message := sr.1.take 500 }, st3, w5, 1)
    | DelegateEnd.aborted =>
      (Except.ok { passes := false, message := "Auto mode aborted" },
        clearExec st2 f.id, sr.2, 1)
    | DelegateEnd.errored msg =>
      (Except.error msg, clearExec st2 f.id, sr.2, 1)

/-- `verifyFeatureTests`: verification phase message, open an abort
token, stream the delegate, then reload the store and pass exactly when
the status reads "verified".  Abort is a non-passing result. -/
def verifyFeatureTests (st : SvcState) (w : World) (f : Feature) (step : DelegateStep) :
    Except String PhaseResult × SvcState × World × Nat :=
  match regGet st f.id with
  | none =>
    (Except.error ("Feature " ++ f.id ++ " not registered in runningFeatures"), st, w, 0)
  | some ex =>
    let w1 := writeToContextFile w f.id
      ("\n✅ Verifying tests for: " ++ f.description ++ "\n")
    let tw := newToken w1
    let st1 := regSet st f.id { ex with abortController := some tw.1 }
    let w2 := writeToContextFile tw.2 f.id
      "Running Playwright tests to verify feature implementation...\n"
    let st2 := regSet st1 f.id { abortController := some tw.1, hasQuery := true }
    let sr := runStream f.id false w2 step.events
    match step.outcome with
    | DelegateEnd.normal =>
      let st3 := clearExec st2 f.id
      let lw := loadFeaturesW sr.2
      let passes := statusIsVerified lw.1 f.id
      let w3 := writeToContextFile lw.2 f.id
        (if passes then "✓ Verification successful: All tests passed\n"
         else "✗ Tests failed or not all passing - feature remains in progress\n")
      (Except.ok { passes := passes, message := sr.1.take 500 }, st3, w3, 1)
    | DelegateEnd.aborted =>
      (Except.ok { passes := false, message := "Verification aborted" },
        clearExec st2 f.id, sr.2, 1)
    | DelegateEnd.errored msg =>
      (Except.error msg, clearExec st2 f.id, sr.2, 1)

/-- `resumeFeatureWithContext`: resume message, open an abort token,
stream the delegate with the previous log as prompt context (the
context only shapes the prompt, so it does not appear in the
semantics), then reload and pass exactly when the status reads
"verified".  Abort is a non-passing result. -/
def resumeFeatureWithContext (st : SvcState) (w : World) (f : Feature)
    (_previousContext : Option String) (step : DelegateStep) :
    Except String PhaseResult × SvcState × World × Nat :=
  match regGet st f.id with
  | none =>
    (Except.error ("Feature " ++ f.id ++ " not registered in runningFeatures"), st, w, 0)
  | some ex =>
    let w1 := writeToContextFile w f.id
      ("\n🔄 Resuming implementation for: " ++ f.description ++ "\n")
    let tw := newToken w1
    let st1 := regSet st f.id { ex with abortController := some tw.1 }
    let st2 := regSet st1 f.id { abortController := some tw.1, hasQuery := true }
    let sr := runStream f.id false tw.2 step.events
    match step.outcome with
    | DelegateEnd.normal =>
      let st3 := clearExec st2 f.id
      let lw := loadFeaturesW sr.2
      let passes := statusIsVerified lw.1 f.id
      let w3 := writeToContextFile lw.2 f.id
        (if passes then "✓ Feature successfully verified and completed\n"
         else "⚠ Feature still in progress - may need additional work\n")
      (Except.ok { passes := passes, message := sr.1.take 500 }, st3, w3, 1)
    | DelegateEnd.aborted =>
      (Except.ok { passes := false, message := "Resume aborted" },
        clearExec st2 f.id, sr.2, 1)
    | DelegateEnd.errored msg =>
      (Except.error msg, clearExec st2 f.id, sr.2, 1)

/-- The `{ success, passes }` record the entry points return. -/
structure OpResult where
  success : Bool
  passes : Bool
deriving DecidableEq

/-- `runFeature({projectPath, featureId})`: already-running guard,
register, load + find (not-found raises), set `in_progress`, one
`implementFeature` call, persist `verified`/`backlog` from the result,
unregister in a finally-equivalent path.  Returns the outcome, the
service state, the world, and the number of delegate queries made. -/
def runFeature (st : SvcState) (w : World) (fid : String) (oracle : List DelegateStep) :
    Except String OpResult × SvcState × World × Nat :=
  if regHas st fid then
    (Except.error ("Feature " ++ fid ++ " is already running"), st, w, 0)
  else
    let st1 := regSet st fid freshExecution
    let lw := loadFeaturesW w
    match lw.1.find? (fun f => f.id == fid) with
    | none =>
      (Except.error ("Feature " ++ fid ++ " not found"), regDelete st1 fid, lw.2, 0)
    | some f =>
      let w1 := applyUpdateW lw.2 fid "in_progress"
      let os := takeStep oracle
      let r := implementFeature st1 w1 f os.1
      match r.1 with
      | Except.ok pr =>
        let newStatus := if pr.passes then "verified" else "backlog"
        let w2 := applyUpdateW r.2.2.1 f.id newStatus
        (Except.ok { success := true, passes := pr.passes },
          regDelete r.2.1 fid, w2, r.2.2.2)
      | Except.error e =>
        (Except.error e, regDelete r.2.1 fid, r.2.2.1, r.2.2.2)

/-- `verifyFeature({projectPath, featureId})`: already-running guard,
register, load + find (not-found raises), one `verifyFeatureTests`
call, persist `verified`/`in_progress` from the result, unregister. -/
def verifyFeature (st : SvcState) (w : World) (fid : String) (oracle : List DelegateStep) :
    Except String OpResult × SvcState × World × Nat :=
  if regHas st fid then
    (Except.error ("Feature " ++ fid ++ " is already running"), st, w, 0)
  else
    let st1 := regSet st fid freshExecution
    let lw := loadFeaturesW w
    match lw.1.find? (fun f => f.id == fid) with
    | none =>
      (Except.error ("Feature " ++ fid ++ " not found"), regDelete st1 fid, lw.2, 0)
    | some f =>
      let os := takeStep oracle
      let r := verifyFeatureTests st1 lw.2 f os.1
      match r.1 with
      | Except.ok pr =>
        let newStatus := if pr.passes then "verified" else "in_progress"
        let w2 := applyUpdateW r.2.2.1 fid newStatus
        (Except.ok { success := true, passes := pr.passes },
          regDelete r.2.1 fid, w2, r.2.2.2)
      | Except.error e =>
        (Except.error e, regDelete r.2.1 fid, r.2.2.1, r.2.2.2)

/-- The auto-retry while loop inside `resumeFeature`:
`while (!finalResult.passes && attempts < maxAttempts)` with
`maxAttempts = 3`, modelled with the remaining budget as fuel.  Each
iteration reloads the store; only a feature still `in_progress` is
retried (retry marker appended to the log, log reloaded as context,
one more `resumeFeatureWithContext` call); otherwise the loop breaks. -/
def resumeRetry (f : Feature) (attemptNo fuel : Nat) (st : SvcState) (w : World)
    (oracle : List DelegateStep) (r : PhaseResult) :
    Except String PhaseResult × SvcState × World × Nat :=
  if r.passes then (Except.ok r, st, w, 0)
  else
    match fuel with
    | 0 => (Except.ok r, st, w, 0)
    | Nat.succ fuel2 =>
      let lw := loadFeaturesW w
      match lw.1.find? (fun g => g.id == f.id) with
      | some uf =>
        if uf.status == "in_progress" then
          let k := attemptNo + 1
          let w1 := writeToContextFile lw.2 f.id
            ("\n\n🔄 Auto-retry #" ++ toString k ++ " - Continuing implementation...\n\n")
          let ctx := readContextFile w1 f.id
          let os := takeStep oracle
          let rr := resumeFeatureWithContext st w1 f ctx os.1
          match rr.1 with
          | Except.error e => (Except.error e, rr.2.1, rr.2.2.1, rr.2.2.2)
          | Except.ok r2 =>
            let rec2 := resumeRetry f k fuel2 rr.2.1 rr.2.2.1 os.2 r2
            (rec2.1, rec2.2.1, rec2.2.2.1, rr.2.2.2 + rec2.2.2.2)
        else (Except.ok r, st, lw.2, 0)
      | none => (Except.ok r, st, lw.2, 0)

/-- `resumeFeature({projectPath, featureId})`: already-running guard,
register, load + find (not-found raises), read the existing context,
one `resumeFeatureWithContext` call, then the bounded auto-retry loop,
then persist `verified`/`in_progress` from the final result, and
unregister. -/
def resumeFeature (st : SvcState) (w : World) (fid : String) (oracle : List DelegateStep) :
    Except String OpResult × SvcState × World × Nat :=
  if regHas st fid then
    (Except.error ("Feature " ++ fid ++ " is already running"), st, w, 0)
  else
    let st1 := regSet st fid freshExecution
    let lw := loadFeaturesW w
    match lw.1.find? (fun f => f.id == fid) with
    | none =>
      (Except.error ("Feature " ++ fid ++ " not found"), regDelete st1 fid, lw.2, 0)
    | some f =>
      let ctx := readContextFile lw.2 fid
      let os := takeStep oracle
      let r0 := resumeFeatureWithContext st1 lw.2 f ctx os.1
      match r0.1 with
      | Except.error e =>
        (Except.error e, regDelete r0.2.1 fid, r0.2.2.1, r0.2.2.2)
      | Except.ok pr =>
        let rr := resumeRetry f 0 3 r0.2.1 r0.2.2.1 os.2 pr
        match rr.1 with
        | Except.error e =>
          (Except.error e, regDelete rr.2.1 fid, rr.2.2.1, r0.2.2.2 + rr.2.2.2)
        | Except.ok finalResult =>
          let newStatus := if finalResult.passes then "verified" else "in_progress"
          let w2 := applyUpdateW rr.2.2.1 fid newStatus
          (Except.ok { success := true, passes := finalResult.passes },
            regDelete rr.2.1 fid, w2, r0.2.2.2 + rr.2.2.2)

/-- Result of `start`: the new service state, plus the fact that the
loop body was launched fire-and-forget (without blocking the caller). -/
structure StartResult where
  state : SvcState
  loopLaunched : Bool
deriving DecidableEq

/-- `start`: rejected while the loop flag is set; otherwise sets the
flag and launches `runLoop` detached.  Note that the source never
assigns `autoLoopAbortController` here (or anywhere else): the field
is left exactly as it was. -/
def start (st : SvcState) : Except String StartResult :=
  if st.autoLoopRunning then Except.error "Auto mode loop is already running"
  else Except.ok { state := { st with autoLoopRunning := true }, loopLaunched := true }

/-- `abortController.abort()` on token `tid`. -/
def triggerToken (tokens : List (Nat × Bool)) (tid : Nat) : List (Nat × Bool) :=
  tokens.map (fun p => if p.1 == tid then (p.1, true) else p)

/-- Abort one registry entry's token if it has one (no-op otherwise). -/
def triggerExec (w : World) (p : String × Execution) : World :=
  match p.2.abortController with
  | some tid => { w with tokens := triggerToken w.tokens tid }
  | none => w

/-- `stop`: clear the loop flag, abort + null the loop-level controller,
abort every registered execution's controller, clear the registry. -/
def stop (st : SvcState) (w : World) : SvcState × World :=
  let w1 :=
    match st.autoLoopAbortController with
    | some tid => { w with tokens := triggerToken w.tokens tid }
    | none => w
  let w2 := st.runningFeatures.foldl triggerExec w1
  ({ runningFeatures := [], autoLoopRunning := false, autoLoopAbortController := none }, w2)

/-- The `.catch` handler installed by `start` on the detached loop:
log the error and call `stop`. -/
def loopErrorTrap (st : SvcState) (w : World) : SvcState × World :=
  stop st w

/-! Fixtures used by several theorems below: a store holding exactly one
feature with an explicit id, an idle service state, and the delegate
behaviours the scenarios need. -/

/-- A feature list file holding exactly one feature with explicit id. -/
def singleFeatureDisk (fid cat desc : String) (steps : List String)
    (status0 : String) (logs : List (String × String)) : Disk :=
  { featureFile := some
      [{ id := some fid, category := cat, description := desc,
         steps := steps, status := status0 }]
    logs := logs }

/-- A world over a single-feature store. -/
def famWorld (fid cat desc : String) (steps : List String) (status0 : String)
    (logs : List (String × String)) (t : Nat) (tk : List (Nat × Bool)) (nt : Nat) : World :=
  { disk := singleFeatureDisk fid cat desc steps status0 logs
    time := t, tokens := tk, nextToken := nt }

/-- A service state with an empty execution registry. -/
def idleSvc (b : Bool) (lc : Option Nat) : SvcState :=
  { runningFeatures := [], autoLoopRunning := b, autoLoopAbortController := lc }

/-- A delegate turn that calls UpdateFeatureStatus(fid, "verified") and ends. -/
def passStepFor (fid : String) : DelegateStep :=
  { events := [DelegateEvent.statusUpdate fid "verified"], outcome := DelegateEnd.normal }

/-- A delegate turn that calls UpdateFeatureStatus(fid, "backlog") and ends. -/
def backlogStepFor (fid : String) : DelegateStep :=
  { events := [DelegateEvent.text "w", DelegateEvent.statusUpdate fid "backlog"],
    outcome := DelegateEnd.normal }

/-- A delegate turn that only emits text and ends without any tool call. -/
def textStep (s : String) : DelegateStep :=
  { events := [DelegateEvent.text s], outcome := DelegateEnd.normal }

/-! Helper lemmas about the log and token structures. -/

/-- After an append the log file for that feature id exists. -/
lemma appendLog_any (L : List (String × String)) (fid c : String) :
    ((appendLog L fid c).any (fun p => p.1 == fid)) = true := by
  induction L with
  | nil => simp [appendLog]
  | cons p L ih =>
    obtain ⟨k, v⟩ := p
    by_cases h : (k == fid) = true
    · simp [appendLog, h]
    · simp [appendLog, h, ih]

/-- After the unlink, no log entry for that feature id remains. -/
lemma filter_ne_any (L : List (String × String)) (fid : String) :
    ((L.filter (fun p => !(p.1 == fid))).any (fun p => p.1 == fid)) = false := by
  induction L with
  | nil => simp
  | cons p L ih =>
    by_cases h : (p.1 == fid) = true
    · simp [h, ih]
    · simp [h, ih]

/-- Indexing into `assignIds`: element `i` is element `i` of the raw
list with the id assigned at index `j + i`. -/
lemma assignIds_getElem? (now j : Nat) (rs : List RawFeature) (i : Nat) :
    (assignIds now j rs)[i]? = (rs[i]?).map (assignId now (j + i)) := by
  induction rs generalizing j i with
  | nil => simp [assignIds]
  | cons r rs ih =>
    cases i with
    | zero => simp [assignIds]
    | succ i =>
      have harith : j + 1 + i = j + (i + 1) := by omega
      simp [assignIds, ih (j + 1) i, harith]

/-- Every token entry matching the triggered id reads true afterwards. -/
lemma triggerToken_sets (tokens : List (Nat × Bool)) (tid : Nat) :
    ∀ q ∈ triggerToken tokens tid, q.1 = tid → q.2 = true := by
  intro q hq h1
  simp only [triggerToken, List.mem_map] at hq
  obtain ⟨p, hp, hfp⟩ := hq
  by_cases hb : (p.1 == tid) = true
  · rw [← hfp]; simp [hb]
  · rw [← hfp] at h1 ⊢
    simp only [hb, if_neg, Bool.false_eq_true, if_false] at h1 ⊢
    exact absurd (beq_iff_eq.mpr h1) hb

/-- Triggering one token never untriggers another. -/
lemma triggerToken_preserve (tokens : List (Nat × Bool)) (tid x : Nat)
    (h : ∀ q ∈ tokens, q.1 = x → q.2 = true) :
    ∀ q ∈ triggerToken tokens tid, q.1 = x → q.2 = true := by
  intro q hq h1
  simp only [triggerToken, List.mem_map] at hq
  obtain ⟨p, hp, hfp⟩ := hq
  by_cases hb : (p.1 == tid) = true
  · rw [← hfp]; simp [hb]
  · rw [← hfp] at h1 ⊢
    simp only [hb, Bool.false_eq_true, if_false] at h1 ⊢
    exact h p hp h1

/-- Folding the per-execution abort over the registry keeps every
already-triggered token triggered. -/
lemma foldl_triggerExec_preserve (L : List (String × Execution)) (w : World) (x : Nat)
    (h : ∀ q ∈ w.tokens, q.1 = x → q.2 = true) :
    ∀ q ∈ (L.foldl triggerExec w).tokens, q.1 = x → q.2 = true := by
  induction L generalizing w with
  | nil => simpa using h
  | cons p L ih =>
    rw [List.foldl_cons]
    apply ih
    cases hac : p.2.abortController with
    | none => simpa [triggerExec, hac] using h
    | some tid =>
      intro q hq h1
      refine triggerToken_preserve w.tokens tid x h q ?_ h1
      simpa [triggerExec, hac] using hq

/-- Folding the per-execution abort over the registry triggers the token
of every registered execution that has one. -/
lemma foldl_triggerExec_hits (L : List (String × Execution)) (w : World)
    (fid : String) (ex : Execution) (tid : Nat)
    (hmem : (fid, ex) ∈ L) (htid : ex.abortController = some tid) :
    ∀ q ∈ (L.foldl triggerExec w).tokens, q.1 = tid → q.2 = true := by
  induction L generalizing w with
  | nil => cases hmem
  | cons p L ih =>
    rw [List.foldl_cons]
    rcases List.mem_cons.mp hmem with heq | htail
    · apply foldl_triggerExec_preserve
      intro q hq h1
      refine triggerToken_sets w.tokens tid q ?_ h1
      rw [← heq] at *
      simpa [triggerExec, htid] using hq
    · exact ih (triggerExec w p) htail

/-! The claims. -/

/-- Claim C1: for every feature id already present in the
`runningFeatures` registry, each of `runFeature`, `verifyFeature` and
`resumeFeature` fails with the already-running error before making any
delegate call (0 queries) and without mutating anything — the service
state and the whole world, in particular the feature's persisted
status, are returned unchanged. -/
theorem already_running_guard (st : SvcState) (w : World) (fid : String)
    (oracle : List DelegateStep) (h : regHas st fid = true) :
    runFeature st w fid oracle =
      (Except.error ("Feature " ++ fid ++ " is already running"), st, w, 0) ∧
    verifyFeature st w fid oracle =
      (Except.error ("Feature " ++ fid ++ " is already running"), st, w, 0) ∧
    resumeFeature st w fid oracle =
      (Except.error ("Feature " ++ fid ++ " is already running"), st, w, 0) := by
  refine ⟨?_, ?_, ?_⟩ <;>
    simp [runFeature, verifyFeature, resumeFeature, h]

/-- Witness for C1 at a concrete registered feature id. -/
theorem already_running_guard_witness :
    regHas { runningFeatures := [("f1", freshExecution)], autoLoopRunning := false,
             autoLoopAbortController := none } "f1" = true ∧
    runFeature { runningFeatures := [("f1", freshExecution)], autoLoopRunning := false,
                 autoLoopAbortController := none }
        (famWorld "f1" "c" "d" [] "backlog" [] 0 [] 0) "f1" [] =
      (Except.error ("Feature " ++ "f1" ++ " is already running"),
        { runningFeatures := [("f1", freshExecution)], autoLoopRunning := false,
          autoLoopAbortController := none },
        famWorld "f1" "c" "d" [] "backlog" [] 0 [] 0, 0) :=
  ⟨by decide,
   (already_running_guard _ (famWorld "f1" "c" "d" [] "backlog" [] 0 [] 0) "f1" []
      (by decide)).1⟩

/-- Claim C5: `loadFeatures` returns the empty list whenever the
feature list file cannot be read or parsed, and assigns the generated
id `feature-<index>-<timestamp>` to every loaded record whose stored id
is absent. -/
theorem loadFeatures_failure_and_genId (logs : List (String × String)) (now : Nat)
    (raws : List RawFeature) (i : Nat) (r : RawFeature)
    (hr : raws[i]? = some r) (hid : r.id = none) :
    loadFeatures { featureFile := none, logs := logs } now = [] ∧
    ((loadFeatures { featureFile := some raws, logs := logs } now)[i]?).map
        (fun f => f.id) = some (genId i now) := by
  constructor
  · rfl
  · simp [loadFeatures, assignIds_getElem?, hr, assignId, hid]

/-- Witness for C5: a one-record file whose record lacks an id. -/
theorem loadFeatures_failure_and_genId_witness :
    ([({ id := none, category := "c", description := "d", steps := [], status := "backlog" } :
        RawFeature)][0]? = some
      ({ id := none, category := "c", description := "d", steps := [], status := "backlog" } :
        RawFeature)) ∧
    ((loadFeatures
        { featureFile := some
            [{ id := none, category := "c", description := "d", steps := [], status := "backlog" }]
          logs := [] } 5)[0]?).map (fun f => f.id) = some (genId 0 5) :=
  ⟨rfl,
   (loadFeatures_failure_and_genId [] 5
      [{ id := none, category := "c", description := "d", steps := [], status := "backlog" }]
      0 _ rfl rfl).2⟩

/-- Claim C6: whenever the delegate stream ends in an abort signal, the
three state-machine invocations return a normal (non-raised) result
`{passes := false, message := "<phase> aborted"}` — concretely
"Auto mode aborted", "Verification aborted" and "Resume aborted" — no
matter what the stream produced before the abort. -/
theorem aborted_stream_is_nonpassing (st : SvcState) (w : World) (f : Feature)
    (ex : Execution) (ctx : Option String) (step : DelegateStep)
    (hreg : regGet st f.id = some ex) (hab : step.outcome = DelegateEnd.aborted) :
    (implementFeature st w f step).1 =
      Except.ok { passes := false, message := "Auto mode aborted" } ∧
    (verifyFeatureTests st w f step).1 =
      Except.ok { passes := false, message := "Verification aborted" } ∧
    (resumeFeatureWithContext st w f ctx step).1 =
      Except.ok { passes := false, message := "Resume aborted" } := by
  refine ⟨?_, ?_, ?_⟩ <;>
    simp [implementFeature, verifyFeatureTests, resumeFeatureWithContext, hreg, hab]

/-- Witness for C6 at a concrete registered feature and aborted step. -/
theorem aborted_stream_is_nonpassing_witness :
    regGet { runningFeatures := [("f1", freshExecution)], autoLoopRunning := false,
             autoLoopAbortController := none }
        ({ id := "f1", category := "c", description := "d", steps := [],
           status := "in_progress" } : Feature).id = some freshExecution ∧
    (implementFeature
        { runningFeatures := [("f1", freshExecution)], autoLoopRunning := false,
          autoLoopAbortController := none }
        (famWorld "f1" "c" "d" [] "in_progress" [] 0 [] 0)
        { id := "f1", category := "c", description := "d", steps := [], status := "in_progress" }
        { events := [DelegateEvent.text "x"], outcome := DelegateEnd.aborted }).1 =
      Except.ok { passes := false, message := "Auto mode aborted" } :=
  ⟨by decide,
   (aborted_stream_is_nonpassing _ (famWorld "f1" "c" "d" [] "in_progress" [] 0 [] 0)
      { id := "f1", category := "c", description := "d", steps := [], status := "in_progress" }
      freshExecution none
      { events := [DelegateEvent.text "x"], outcome := DelegateEnd.aborted }
      (by decide) rfl).1⟩

/-- Claim C4, counterexample: the claim quantifies over every featureId,
but for a featureId absent from the store `updateFeatureStatus` returns
early (the id lookup fails) and does not delete the execution log even
though the new status is "verified". -/
theorem update_unknown_id_keeps_log :
    (updateFeatureStatusImpl { featureFile := some [], logs := [("f1", "log")] }
        "f1" "verified" 0 none).logs = [("f1", "log")] ∧
    logExistsB (updateFeatureStatusImpl { featureFile := some [], logs := [("f1", "log")] }
        "f1" "verified" 0 none) "f1" = true := by
  constructor <;> rfl

/-- Claim C4 (amended to featureIds present in the store): for every
feature present in the store, `updateFeatureStatus` deletes that
feature's execution log exactly when the new status is "verified" (the
deletion actually removing the file only when the unlink does not
fault), a deletion failure is never propagated — the call still returns
normally and the status write to the feature list still happens. -/
theorem update_deletes_log_iff_verified (fid cat desc : String) (steps : List String)
    (status0 : String) (logs : List (String × String)) (now t2 : Nat)
    (fault : Option String) (status : String)
    (hfid : fid.isEmpty = false) :
    updateFeatureStatus (singleFeatureDisk fid cat desc steps status0 logs) fid status now fault =
      Except.ok (updateFeatureStatusImpl (singleFeatureDisk fid cat desc steps status0 logs)
        fid status now fault) ∧
    (status = "verified" → fault = none →
      logExistsB (updateFeatureStatusImpl (singleFeatureDisk fid cat desc steps status0 logs)
        fid status now fault) fid = false) ∧
    (status = "verified" →
      storedStatus (updateFeatureStatusImpl (singleFeatureDisk fid cat desc steps status0 logs)
        fid status now fault) t2 fid = some "verified") ∧
    ((status == "verified") = false →
      (updateFeatureStatusImpl (singleFeatureDisk fid cat desc steps status0 logs)
        fid status now fault).logs = logs) := by
  refine ⟨rfl, ?_, ?_, ?_⟩
  · rintro rfl rfl
    simp [updateFeatureStatusImpl, singleFeatureDisk, loadFeatures, assignIds, assignId,
      hfid, setStatusFirst, featureToRaw, deleteContextFile, logExistsB, filter_ne_any]
  · rintro rfl
    simp [updateFeatureStatusImpl, singleFeatureDisk, loadFeatures, assignIds, assignId,
      hfid, setStatusFirst, featureToRaw, deleteContextFile, storedStatus]
  · intro hst
    simp [updateFeatureStatusImpl, singleFeatureDisk, loadFeatures, assignIds, assignId,
      hfid, setStatusFirst, featureToRaw, hst]

/-- Witness for C4 (amended) at a concrete store and statuses. -/
theorem update_deletes_log_iff_verified_witness :
    ("f1" : String).isEmpty = false ∧
    logExistsB (updateFeatureStatusImpl (singleFeatureDisk "f1" "c" "d" [] "in_progress"
        [("f1", "log")]) "f1" "verified" 0 none) "f1" = false ∧
    (updateFeatureStatusImpl (singleFeatureDisk "f1" "c" "d" [] "in_progress"
        [("f1", "log")]) "f1" "backlog" 0 none).logs = [("f1", "log")] :=
  ⟨by decide,
   (update_deletes_log_iff_verified "f1" "c" "d" [] "in_progress" [("f1", "log")] 0 0
      none "verified" (by decide)).2.1 rfl rfl,
   (update_deletes_log_iff_verified "f1" "c" "d" [] "in_progress" [("f1", "log")] 0 0
      none "backlog" (by decide)).2.2.2 (by decide)⟩

/-- Claim C7: `stop` clears the loop-running flag, empties the
execution registry, and triggers the cancellation token of every
registered execution that has one. -/
theorem stop_cancels_all (st : SvcState) (w : World) (fid : String)
    (ex : Execution) (tid : Nat)
    (hmem : (fid, ex) ∈ st.runningFeatures) (htid : ex.abortController = some tid) :
    (stop st w).1.autoLoopRunning = false ∧
    (stop st w).1.runningFeatures = [] ∧
    ∀ q ∈ (stop st w).2.tokens, q.1 = tid → q.2 = true := by
  refine ⟨rfl, rfl, ?_⟩
  simp only [stop]
  exact foldl_triggerExec_hits st.runningFeatures _ fid ex tid hmem htid

/-- Witness for C7: one registered execution holding token 0. -/
theorem stop_cancels_all_witness :
    (stop { runningFeatures := [("f1", { abortController := some 0, hasQuery := true })],
            autoLoopRunning := true, autoLoopAbortController := none }
        (famWorld "f1" "c" "d" [] "in_progress" [] 0 [(0, false)] 1)).1.autoLoopRunning = false ∧
    (stop { runningFeatures := [("f1", { abortController := some 0, hasQuery := true })],
            autoLoopRunning := true, autoLoopAbortController := none }
        (famWorld "f1" "c" "d" [] "in_progress" [] 0 [(0, false)] 1)).1.runningFeatures = [] :=
  ⟨(stop_cancels_all _ (famWorld "f1" "c" "d" [] "in_progress" [] 0 [(0, false)] 1)
      "f1" { abortController := some 0, hasQuery := true } 0
      (by simp) rfl).1,
   (stop_cancels_all _ (famWorld "f1" "c" "d" [] "in_progress" [] 0 [(0, false)] 1)
      "f1" { abortController := some 0, hasQuery := true } 0
      (by simp) rfl).2.1⟩

/-- Claim C8, counterexample: a successful `start` from a fresh state
leaves `autoLoopAbortController` unset — the source never assigns the
loop-level cancellation token, so "opens the loop-level cancellation
token" is false. -/
theorem start_leaves_loop_token_unset :
    start { runningFeatures := [], autoLoopRunning := false, autoLoopAbortController := none } =
      Except.ok
        { state := { runningFeatures := [], autoLoopRunning := true,
                     autoLoopAbortController := none },
          loopLaunched := true } := rfl

/-- Claim C8 (amended): `start` fails with the already-running error
whenever the loop flag is set; otherwise it sets the flag and launches
the loop body without blocking the caller, with an error trap that
calls `stop` on any uncaught loop error — but it does not open the
loop-level cancellation token: the controller field is returned exactly
as it was (the source never assigns it). -/
theorem start_contract (st : SvcState) :
    (st.autoLoopRunning = true →
      start st = Except.error "Auto mode loop is already running") ∧
    (st.autoLoopRunning = false →
      start st = Except.ok
        { state := { st with autoLoopRunning := true }, loopLaunched := true } ∧
      ∀ r, start st = Except.ok r →
        r.state.autoLoopAbortController = st.autoLoopAbortController) ∧
    loopErrorTrap = stop := by
  refine ⟨fun h => by simp [start, h], fun h => ⟨by simp [start, h], ?_⟩, rfl⟩
  intro r hr
  simp [start, h] at hr
  rw [← hr]

/-- Witness for C8 (amended) at both flag values. -/
theorem start_contract_witness :
    start { runningFeatures := [], autoLoopRunning := true, autoLoopAbortController := none } =
      Except.error "Auto mode loop is already running" ∧
    start { runningFeatures := [], autoLoopRunning := false, autoLoopAbortController := none } =
      Except.ok
        { state := { runningFeatures := [], autoLoopRunning := true,
                     autoLoopAbortController := none },
          loopLaunched := true } :=
  ⟨(start_contract { runningFeatures := [], autoLoopRunning := true,
                     autoLoopAbortController := none }).1 rfl,
   ((start_contract { runningFeatures := [], autoLoopRunning := false,
                      autoLoopAbortController := none }).2.1 rfl).1⟩

/-- Claim C9, counterexample: `updateFeatureStatus` called with a
feature id not present in the store does not surface any error to the
caller — it logs, leaves the store untouched and returns normally. -/
theorem update_unknown_id_no_error :
    updateFeatureStatus { featureFile := some [], logs := [] } "missing" "verified" 0 none =
      Except.ok { featureFile := some [], logs := [] } := rfl

/-- Claim C9 (amended): a run/verify/resume request naming a feature id
absent from the store fails immediately with the not-found error,
makes no delegate call and leaves the store unchanged; the status-update
path however swallows the unknown id: `updateFeatureStatus` returns
normally with the store untouched instead of surfacing an error. -/
theorem unknown_feature_id_paths (st : SvcState) (w : World) (fid : String)
    (oracle : List DelegateStep) (status : String) (fault : Option String)
    (hreg : regHas st fid = false)
    (hfind : (loadFeatures w.disk w.time).find? (fun f => f.id == fid) = none) :
    (runFeature st w fid oracle).1 = Except.error ("Feature " ++ fid ++ " not found") ∧
    (runFeature st w fid oracle).2.2.2 = 0 ∧
    (runFeature st w fid oracle).2.2.1.disk = w.disk ∧
    (verifyFeature st w fid oracle).1 = Except.error ("Feature " ++ fid ++ " not found") ∧
    (verifyFeature st w fid oracle).2.2.2 = 0 ∧
    (verifyFeature st w fid oracle).2.2.1.disk = w.disk ∧
    (resumeFeature st w fid oracle).1 = Except.error ("Feature " ++ fid ++ " not found") ∧
    (resumeFeature st w fid oracle).2.2.2 = 0 ∧
    (resumeFeature st w fid oracle).2.2.1.disk = w.disk ∧
    updateFeatureStatus w.disk fid status w.time fault = Except.ok w.disk := by
  refine ⟨?_, ?_, ?_, ?_, ?_, ?_, ?_, ?_, ?_, ?_⟩ <;>
    simp [runFeature, verifyFeature, resumeFeature, updateFeatureStatus,
      updateFeatureStatusImpl, loadFeaturesW, hreg, hfind]

/-- Witness for C9 (amended): an empty store and an unknown id. -/
theorem unknown_feature_id_paths_witness :
    (runFeature (idleSvc false none)
        { disk := { featureFile := some [], logs := [] }, time := 0, tokens := [], nextToken := 0 }
        "zz" []).1 = Except.error ("Feature " ++ "zz" ++ " not found") ∧
    updateFeatureStatus ({ featureFile := some [], logs := [] } : Disk) "zz" "backlog" 0 none =
      Except.ok { featureFile := some [], logs := [] } :=
  ⟨(unknown_feature_id_paths (idleSvc false none)
      { disk := { featureFile := some [], logs := [] }, time := 0, tokens := [], nextToken := 0 }
      "zz" [] "backlog" none (by decide) (by decide)).1,
   (unknown_feature_id_paths (idleSvc false none)
      { disk := { featureFile := some [], logs := [] }, time := 0, tokens := [], nextToken := 0 }
      "zz" [] "backlog" none (by decide) (by decide)).2.2.2.2.2.2.2.2.2⟩

/-- Claim C3: over a single-feature store, a completed `runFeature`
persists "verified" when the result passes and "backlog" when it does
not (keeping the execution log on the non-passing outcome), and a
completed `verifyFeature` persists "verified" when the result passes
and "in_progress" when it does not — never "backlog"; in each case the
result passes exactly when the freshly reloaded store reads
"verified" (the persisted status mirrors `passes` in every branch). -/
theorem run_verify_status_resolution (fid cat desc : String) (steps : List String)
    (status0 : String) (logs : List (String × String)) (t t2 nt : Nat)
    (tk : List (Nat × Bool)) (b : Bool) (lc : Option Nat) (a : String)
    (hfid : fid.isEmpty = false) (hs0 : status0 ≠ "verified") :
    ((runFeature (idleSvc b lc) (famWorld fid cat desc steps status0 logs t tk nt) fid
        [passStepFor fid]).1 = Except.ok { success := true, passes := true } ∧
      storedStatus (runFeature (idleSvc b lc) (famWorld fid cat desc steps status0 logs t tk nt)
        fid [passStepFor fid]).2.2.1.disk t2 fid = some "verified") ∧
    ((runFeature (idleSvc b lc) (famWorld fid cat desc steps status0 logs t tk nt) fid
        [textStep a]).1 = Except.ok { success := true, passes := false } ∧
      storedStatus (runFeature (idleSvc b lc) (famWorld fid cat desc steps status0 logs t tk nt)
        fid [textStep a]).2.2.1.disk t2 fid = some "backlog" ∧
      logExistsB (runFeature (idleSvc b lc) (famWorld fid cat desc steps status0 logs t tk nt)
        fid [textStep a]).2.2.1.disk fid = true) ∧
    ((verifyFeature (idleSvc b lc) (famWorld fid cat desc steps status0 logs t tk nt) fid
        [passStepFor fid]).1 = Except.ok { success := true, passes := true } ∧
      storedStatus (verifyFeature (idleSvc b lc) (famWorld fid cat desc steps status0 logs t tk nt)
        fid [passStepFor fid]).2.2.1.disk t2 fid = some "verified") ∧
    ((verifyFeature (idleSvc b lc) (famWorld fid cat desc steps status0 logs t tk nt) fid
        [textStep a]).1 = Except.ok { success := true, passes := false } ∧
      storedStatus (verifyFeature (idleSvc b lc) (famWorld fid cat desc steps status0 logs t tk nt)
        fid [textStep a]).2.2.1.disk t2 fid = some "in_progress") := by
  refine ⟨⟨?_, ?_⟩, ⟨?_, ?_, ?_⟩, ⟨?_, ?_⟩, ⟨?_, ?_⟩⟩ <;>
    simp [runFeature, verifyFeature, implementFeature, verifyFeatureTests,
      regHas, regGet, regSet, regDelete, setAssoc, clearExec, freshExecution,
      loadFeaturesW, loadFeatures, assignIds, assignId, applyUpdateW,
      updateFeatureStatusImpl, setStatusFirst, featureToRaw, deleteContextFile,
      writeToContextFile, readContextFile, appendLog_any, newToken, takeStep,
      runStream, streamEvent, toolUseMsg, statusIsVerified, storedStatus,
      logExistsB, singleFeatureDisk, famWorld, idleSvc, passStepFor, textStep,
      genId, filter_ne_any, hfid, hs0]

/-- Witness for C3 on the concrete feature "f1". -/
theorem run_verify_status_resolution_witness :
    ("f1" : String).isEmpty = false ∧
    (runFeature (idleSvc false none) (famWorld "f1" "c" "d" ["s"] "backlog" [] 0 [] 0) "f1"
        [passStepFor "f1"]).1 = Except.ok { success := true, passes := true } ∧
    storedStatus (verifyFeature (idleSvc false none)
        (famWorld "f1" "c" "d" ["s"] "in_progress" [] 0 [] 0) "f1"
        [textStep "a"]).2.2.1.disk 9 "f1" = some "in_progress" :=
  ⟨by decide,
   (run_verify_status_resolution "f1" "c" "d" ["s"] "backlog" [] 0 9 0 [] false none "a"
      (by decide) (by decide)).1.1,
   (run_verify_status_resolution "f1" "c" "d" ["s"] "in_progress" [] 0 9 0 [] false none "a"
      (by decide) (by decide)).2.2.2.2⟩

/-- Claim C2: against a feature that stays `in_progress` while every
delegate turn ends without reaching "verified" (text-only turns),
`resumeFeature` makes exactly 1 initial attempt plus 3 retries — 4
delegate queries in total, regardless of how many further turns the
delegate could have offered — and then returns a non-passing result. -/
theorem resume_retry_bound (fid cat desc : String) (steps : List String)
    (logs : List (String × String)) (t nt : Nat) (tk : List (Nat × Bool))
    (b : Bool) (lc : Option Nat) (a1 a2 a3 a4 : String) (extra : List DelegateStep)
    (hfid : fid.isEmpty = false) :
    (resumeFeature (idleSvc b lc) (famWorld fid cat desc steps "in_progress" logs t tk nt) fid
        ([textStep a1, textStep a2, textStep a3, textStep a4] ++ extra)).2.2.2 = 4 ∧
    (resumeFeature (idleSvc b lc) (famWorld fid cat desc steps "in_progress" logs t tk nt) fid
        ([textStep a1, textStep a2, textStep a3, textStep a4] ++ extra)).1 =
      Except.ok { success := true, passes := false } := by
  constructor <;>
    simp [resumeFeature, resumeRetry, resumeFeatureWithContext,
      regHas, regGet, regSet, regDelete, setAssoc, clearExec, freshExecution,
      loadFeaturesW, loadFeatures, assignIds, assignId, applyUpdateW,
      updateFeatureStatusImpl, setStatusFirst, featureToRaw, deleteContextFile,
      writeToContextFile, readContextFile, newToken, takeStep,
      runStream, streamEvent, toolUseMsg, statusIsVerified, storedStatus,
      singleFeatureDisk, famWorld, idleSvc, textStep, genId, hfid]

/-- Witness for C2 on the concrete feature "f1" and four text turns. -/
theorem resume_retry_bound_witness :
    ("f1" : String).isEmpty = false ∧
    (resumeFeature (idleSvc false none) (famWorld "f1" "c" "d" ["s"] "in_progress" [] 0 [] 0)
        "f1" ([textStep "a", textStep "b", textStep "c", textStep "d"] ++
          [textStep "e"])).2.2.2 = 4 :=
  ⟨by decide,
   (resume_retry_bound "f1" "c" "d" ["s"] [] 0 0 [] false none "a" "b" "c" "d"
      [textStep "e"] (by decide)).1⟩

/-- Claim C10 (implicit): when `resumeFeature`'s final attempt does not
pass, the epilogue unconditionally persists "in_progress" — even when
the delegate had explicitly set the status to "backlog" during the
attempt: the retry loop stops on the non-`in_progress` status, but the
subsequent status write overwrites "backlog" with "in_progress". -/
theorem resume_nonpass_overwrites_backlog (fid cat desc : String) (steps : List String)
    (logs : List (String × String)) (t t2 nt : Nat) (tk : List (Nat × Bool))
    (b : Bool) (lc : Option Nat) (extra : List DelegateStep)
    (hfid : fid.isEmpty = false) :
    (resumeFeature (idleSvc b lc) (famWorld fid cat desc steps "in_progress" logs t tk nt) fid
        (backlogStepFor fid :: extra)).1 = Except.ok { success := true, passes := false } ∧
    (resumeFeature (idleSvc b lc) (famWorld fid cat desc steps "in_progress" logs t tk nt) fid
        (backlogStepFor fid :: extra)).2.2.2 = 1 ∧
    storedStatus (resumeFeature (idleSvc b lc)
        (famWorld fid cat desc steps "in_progress" logs t tk nt) fid
        (backlogStepFor fid :: extra)).2.2.1.disk t2 fid = some "in_progress" := by
  refine ⟨?_, ?_, ?_⟩ <;>
    simp [resumeFeature, resumeRetry, resumeFeatureWithContext,
      regHas, regGet, regSet, regDelete, setAssoc, clearExec, freshExecution,
      loadFeaturesW, loadFeatures, assignIds, assignId, applyUpdateW,
      updateFeatureStatusImpl, setStatusFirst, featureToRaw, deleteContextFile,
      writeToContextFile, readContextFile, newToken, takeStep,
      runStream, streamEvent, toolUseMsg, statusIsVerified, storedStatus,
      singleFeatureDisk, famWorld, idleSvc, backlogStepFor, genId, hfid]

/-- Witness for C10 on the concrete feature "f1". -/
theorem resume_nonpass_overwrites_backlog_witness :
    ("f1" : String).isEmpty = false ∧
    storedStatus (resumeFeature (idleSvc false none)
        (famWorld "f1" "c" "d" ["s"] "in_progress" [] 0 [] 0) "f1"
        (backlogStepFor "f1" :: [])).2.2.1.disk 9 "f1" = some "in_progress" :=
  ⟨by decide,
   (resume_nonpass_overwrites_backlog "f1" "c" "d" ["s"] [] 0 9 0 [] false none []
      (by decide)).2.2⟩

end AutoMode
